import Mathlib

/-!
Shallow embedding of `src/main.py` (scratchCAD): a siding-area calculator
with rectangular and triangular (gable) wall sections, window/door openings,
unit conversions between points / inches / feet, and aggregation of wall
areas by direction label.

Python floats are modelled as exact numbers: rationals (`ℚ`) for all code
paths that are purely arithmetic, and reals (`ℝ`) for the triangle
difference operation, whose `math.sqrt` has no rational counterpart.
Fallible Python code (a `raise`) is modelled with `Except`.
-/

namespace ScratchCAD

/-- SQ_IN_PER_SQ_FT = 144 -/
def SQ_IN_PER_SQ_FT : ℚ := 144

/-- SCALE_IN_PER_PT = 629 / 799 (inches per point). -/
def SCALE_IN_PER_PT : ℚ := 629 / 799

/-- SCALE_PT_PER_IN = 1 / SCALE_IN_PER_PT (points per inch). -/
def SCALE_PT_PER_IN : ℚ := 1 / SCALE_IN_PER_PT

/-- Python's builtin `round` on a float: round half to even (banker's
rounding).  `round(x)` returns the integer nearest to `x`; a tie (fractional
part exactly 1/2) goes to the even neighbour. -/
def pyRound (x : ℚ) : ℤ :=
  let f : ℤ := ⌊x⌋
  let r : ℚ := x - f
  if r < 1/2 then f
  else if 1/2 < r then f + 1
  else if f % 2 = 0 then f else f + 1

/-- `pts_to_ft_in(pts, round_to_frac=16)` from `src/main.py` lines 12-22:
convert points to inches by `SCALE_IN_PER_PT`, split into whole feet
(`int(inches // 12)`, a floor for Python floats) and a remainder in inches,
round the remainder to the nearest `1/round_to_frac`, and carry one foot
when the rounded remainder reaches 12. -/
def pts_to_ft_in (pts : ℚ) (round_to_frac : ℤ) : ℤ × ℚ :=
  let inches : ℚ := pts * SCALE_IN_PER_PT
  let ft : ℤ := ⌊inches / 12⌋
  let in_rem : ℚ := inches - ft * 12
  let step : ℚ := 1 / (round_to_frac : ℚ)
  let in_rem2 : ℚ := (pyRound (in_rem / step) : ℚ) * step
  if 12 ≤ in_rem2 then (ft + 1, in_rem2 - 12) else (ft, in_rem2)

/-- `ft_in_to_pts(feet, inches)` from `src/main.py` lines 25-26. -/
def ft_in_to_pts (feet : ℤ) (inches : ℚ) : ℚ :=
  ((feet : ℚ) * 12 + inches) * SCALE_PT_PER_IN

/-- `convert_sq_in_to_ft_in(square_inches)` from `src/main.py` lines 29-32:
`int(x // 144)` is the floor of `x / 144` for Python floats, and `x % 144`
is the nonnegative Python remainder. -/
def convert_sq_in_to_ft_in (square_inches : ℚ) : ℤ × ℚ :=
  let sq_ft : ℤ := ⌊square_inches / SQ_IN_PER_SQ_FT⌋
  let rem_in : ℚ := square_inches - sq_ft * SQ_IN_PER_SQ_FT
  (sq_ft, rem_in)

/-- `panels_needed_for_area_sq_in(total_area_sq_in, panel_sq_ft, waste_pct)`
from `src/main.py` lines 44-52: raises `ValueError` when `panel_sq_ft ≤ 0`,
otherwise clamps a negative area to zero, converts to square feet, inflates
by `1 + waste_pct` and takes `math.ceil` of the panel quotient. -/
def panels_needed_for_area_sq_in (total_area_sq_in panel_sq_ft waste_pct : ℚ) :
    Except String ℤ :=
  if panel_sq_ft ≤ 0 then .error "panel_sq_ft must be > 0"
  else
    let total_sq_ft := max 0 total_area_sq_in / SQ_IN_PER_SQ_FT
    let total_sq_ft := total_sq_ft * (1 + waste_pct)
    .ok ⌈total_sq_ft / panel_sq_ft⌉

/-- `Opening(width_in, height_in)` from `src/main.py` lines 35-41. -/
structure Opening where
  width_in : ℚ
  height_in : ℚ
deriving DecidableEq

/-- `Opening.area_sq_in`. -/
def Opening.area_sq_in (o : Opening) : ℚ := o.width_in * o.height_in

/-- `RectSection(width_in, height_in)` from `src/main.py` lines 55-61. -/
structure RectSection where
  width_in : ℚ
  height_in : ℚ
deriving DecidableEq

/-- `RectSection.area_sq_in`. -/
def RectSection.area_sq_in (r : RectSection) : ℚ := r.width_in * r.height_in

/-- The errors the Python code raises (`ValueError` with distinct messages).
The spec's taxonomy names them `PitchMismatch`, `InvalidGeometry`,
`InvalidArgument`. -/
inductive TriError where
  | pitchMismatch
  | invalidGeometry
  | negativeBase
deriving DecidableEq

/-- `TriSection(base_in, pitch_rise, pitch_run)` from `src/main.py`
lines 64-70, over a field `α` (instantiated at `ℚ` for the wall layer and
at `ℝ` for the square-root in `equivalent_difference`). -/
structure TriSection (α : Type) where
  base_in : α
  pitch_rise : α
  pitch_run : α
deriving DecidableEq

/-- The `TriSection.__init__` validation: `base_in < 0` raises `ValueError`. -/
def TriSection.make {α : Type} [LinearOrderedField α] (base_in pitch_rise pitch_run : α) :
    Except TriError (TriSection α) :=
  if base_in < 0 then .error .negativeBase
  else .ok ⟨base_in, pitch_rise, pitch_run⟩

/-- `TriSection.pitch` property: `pitch_rise / pitch_run`. -/
def TriSection.pitch {α : Type} [DivisionRing α] (t : TriSection α) : α :=
  t.pitch_rise / t.pitch_run

/-- `TriSection.area_sq_in` from `src/main.py` lines 76-78:
`h = (base_in / 2) * pitch; area = 0.5 * base_in * h`. -/
def TriSection.area_sq_in {α : Type} [DivisionRing α] (t : TriSection α) : α :=
  (1/2 : α) * t.base_in * ((t.base_in / 2) * t.pitch)

/-- Python's `math.isclose(a, b, rel_tol, abs_tol)`:
`|a - b| ≤ max(rel_tol * max(|a|, |b|), abs_tol)`. -/
def isclose {α : Type} [LinearOrderedField α] (a b rel_tol abs_tol : α) : Prop :=
  |a - b| ≤ max (rel_tol * max |a| |b|) abs_tol

/-- `TriSection.equivalent_difference(self, inner)` from `src/main.py`
lines 80-86: raises unless the pitches are close (`rel_tol=1e-9`,
`abs_tol=1e-12`) and `inner.base_in ≤ self.base_in`; otherwise constructs
`TriSection(sqrt(self.base_in² - inner.base_in²), self.pitch_rise,
self.pitch_run)` (whose constructor re-checks the base sign). -/
noncomputable def TriSection.equivalent_difference
    (self inner : TriSection ℝ) : Except TriError (TriSection ℝ) :=
  have : Decidable
      (isclose self.pitch inner.pitch (1/1000000000) (1/1000000000000)) :=
    Classical.propDecidable _
  if ¬ isclose self.pitch inner.pitch (1/1000000000) (1/1000000000000) then
    .error .pitchMismatch
  else if self.base_in < inner.base_in then
    .error .invalidGeometry
  else
    let b_eq := Real.sqrt (self.base_in ^ 2 - inner.base_in ^ 2)
    TriSection.make b_eq self.pitch_rise self.pitch_run

/-- A wall section is either a `RectSection` or a `TriSection`
(`Wall.sections: List[TriSection | RectSection]`, `src/main.py` line 94);
the wall layer computes with exact rationals. -/
inductive WSection where
  | rect (r : RectSection)
  | tri (t : TriSection ℚ)
deriving DecidableEq

/-- Polymorphic `area_sq_in` dispatch over the two section variants. -/
def WSection.area_sq_in : WSection → ℚ
  | .rect r => r.area_sq_in
  | .tri t => t.area_sq_in

/-- `Wall` from `src/main.py` lines 92-101: an appendable list of sections
and a list of openings. -/
structure Wall where
  sections : List WSection
  openings : List Opening
deriving DecidableEq

/-- `Wall.add_section`. -/
def Wall.add_section (w : Wall) (s : WSection) : Wall :=
  { w with sections := w.sections ++ [s] }

/-- `Wall.add_opening`. -/
def Wall.add_opening (w : Wall) (o : Opening) : Wall :=
  { w with openings := w.openings ++ [o] }

/-- `Wall.section_area_sq_in`: sum of the section areas. -/
def Wall.section_area_sq_in (w : Wall) : ℚ :=
  (w.sections.map WSection.area_sq_in).sum

/-- `Wall.opening_area_sq_in`: sum of the opening areas. -/
def Wall.opening_area_sq_in (w : Wall) : ℚ :=
  (w.openings.map Opening.area_sq_in).sum

/-- `Wall.siding_area_sq_in`: sections minus openings, unclamped. -/
def Wall.siding_area_sq_in (w : Wall) : ℚ :=
  w.section_area_sq_in - w.opening_area_sq_in

/-- `Wall.siding_area_ft_in`: feet/inches conversion of the siding area. -/
def Wall.siding_area_ft_in (w : Wall) : ℤ × ℚ :=
  convert_sq_in_to_ft_in w.siding_area_sq_in

/-- `Wall.panels_needed(panel_sq_ft, waste_pct)`. -/
def Wall.panels_needed (w : Wall) (panel_sq_ft waste_pct : ℚ) :
    Except String ℤ :=
  panels_needed_for_area_sq_in w.siding_area_sq_in panel_sq_ft waste_pct

/-- A Python `str` is modelled as its list of characters, so that the
string operations of `src/main.py` (`strip`, `lower`, dict lookup) are
structurally recursive and computable. -/
abbrev PyStr := List Char

/-- The whitespace test of Python's `str.strip()` with no argument:
space, tab, newline, carriage return, vertical tab, form feed. -/
def isPySpace (c : Char) : Bool :=
  c = ' ' || c = '\t' || c = '\n' || c = '\r' || c = '\x0b' || c = '\x0c'

/-- Python's `str.strip()`: drop whitespace from both ends. -/
def pyStrip (s : PyStr) : PyStr :=
  ((s.dropWhile isPySpace).reverse.dropWhile isPySpace).reverse

/-- Python's `str.lower()`, restricted to the ASCII case mapping (every
label in the repository is ASCII). -/
def pyLower (s : PyStr) : PyStr :=
  s.map Char.toLower

/-- `_DIR_MAP` from `src/main.py` lines 122-135. -/
def _DIR_MAP : List (PyStr × PyStr) :=
  [("n".data, "north".data), ("north".data, "north".data),
   ("s".data, "south".data), ("south".data, "south".data),
   ("e".data, "east".data), ("east".data, "east".data),
   ("w".data, "west".data), ("west".data, "west".data),
   ("front".data, "front".data), ("back".data, "back".data),
   ("left".data, "left".data), ("right".data, "right".data)]

/-- `normalize_direction(label)` from `src/main.py` lines 138-140:
strip, lower-case, look the key up in `_DIR_MAP`, and fall back to the
key itself when absent (`_DIR_MAP.get(key, key)`). -/
def normalize_direction (label : PyStr) : PyStr :=
  let key := pyLower (pyStrip label)
  (_DIR_MAP.lookup key).getD key

/-- `OrientedWall` from `src/main.py` lines 144-151: a wall together with
its (already normalized) direction label. -/
structure OrientedWall where
  wall : Wall
  direction : PyStr
deriving DecidableEq

/-- The `OrientedWall.__init__` constructor, which normalizes the raw
direction label. -/
def OrientedWall.make (wall : Wall) (direction : PyStr) : OrientedWall :=
  ⟨wall, normalize_direction direction⟩

/-- `OrientedWall.siding_area_sq_in`: the wall's siding area clamped to
be nonnegative. -/
def OrientedWall.siding_area_sq_in (ow : OrientedWall) : ℚ :=
  max 0 ow.wall.siding_area_sq_in

/-- `WallContainer` from `src/main.py` lines 155-198: a list of oriented
walls. -/
structure WallContainer where
  walls : List OrientedWall
deriving DecidableEq

/-- `WallContainer.add_wall(wall, direction)`: wrap and append. -/
def WallContainer.add_wall (c : WallContainer) (wall : Wall)
    (direction : PyStr) : WallContainer :=
  ⟨c.walls ++ [OrientedWall.make wall direction]⟩

/-- `WallContainer.total_siding_area_sq_in(directions=None)`: sum the
clamped areas of the walls whose direction lies in the normalized filter
set, or of all walls when no filter is given. -/
def WallContainer.total_siding_area_sq_in (c : WallContainer)
    (directions : Option (List PyStr)) : ℚ :=
  match directions with
  | none => (c.walls.map OrientedWall.siding_area_sq_in).sum
  | some ds =>
      let dirs := ds.map normalize_direction
      ((c.walls.filter (fun ow => ow.direction ∈ dirs)).map
        OrientedWall.siding_area_sq_in).sum

/-- `WallContainer.total_siding_area_ft_in(directions)`. -/
def WallContainer.total_siding_area_ft_in (c : WallContainer)
    (directions : Option (List PyStr)) : ℤ × ℚ :=
  convert_sq_in_to_ft_in (c.total_siding_area_sq_in directions)

/-- One step of the Python dict accumulation
`out[k] = out.get(k, 0.0) + v`, on an insertion-ordered association list
(the model of a Python `dict`). -/
def dictAdd : List (PyStr × ℚ) → PyStr → ℚ → List (PyStr × ℚ)
  | [], k, v => [(k, v)]
  | (k', v') :: rest, k, v =>
      if k' = k then (k', v' + v) :: rest else (k', v') :: dictAdd rest k v

/-- `WallContainer.breakdown_by_direction()`: fold the walls into a
direction-keyed dict of summed clamped areas. -/
def WallContainer.breakdown_by_direction (c : WallContainer) :
    List (PyStr × ℚ) :=
  c.walls.foldl
    (fun out ow => dictAdd out ow.direction ow.siding_area_sq_in) []

/-- `WallContainer.breakdown_by_direction_ft_in()`. -/
def WallContainer.breakdown_by_direction_ft_in (c : WallContainer) :
    List (PyStr × (ℤ × ℚ)) :=
  c.breakdown_by_direction.map (fun kv => (kv.1, convert_sq_in_to_ft_in kv.2))

/-!
Theorems settling the claims.
-/

/-- C4: for every Wall, `siding_area_sq_in` is the section-area sum minus
the opening-area sum with no clamping (it can be negative, as a concrete
wall shows), while for every direction label the oriented wall reports
`max 0` of that value, hence is always nonnegative. -/
theorem wall_siding_clamp_spec :
    (∀ w : Wall, w.siding_area_sq_in =
      (w.sections.map WSection.area_sq_in).sum -
        (w.openings.map Opening.area_sq_in).sum) ∧
    (∃ w : Wall, w.siding_area_sq_in < 0) ∧
    (∀ (w : Wall) (d : PyStr),
      (OrientedWall.make w d).siding_area_sq_in = max 0 w.siding_area_sq_in) ∧
    (∀ (w : Wall) (d : PyStr),
      0 ≤ (OrientedWall.make w d).siding_area_sq_in) := by
  refine ⟨fun w => rfl,
    ⟨⟨[], [⟨1, 1⟩]⟩, by
      norm_num [Wall.siding_area_sq_in, Wall.section_area_sq_in,
        Wall.opening_area_sq_in, Opening.area_sq_in]⟩,
    fun w d => rfl, fun w d => ?_⟩
  exact le_max_left 0 w.siding_area_sq_in

/-- C10: `convert_sq_in_to_ft_in x` returns the floor of `x / 144` and the
remainder `x - 144 * ⌊x / 144⌋`, which lies in `[0, 144)` and reconstitutes
`x`; the feet component is negative for `x < -144`, equals `-1` on
`[-144, 0)`, and a wall whose openings exceed its sections therefore
reports a negative feet component with a nonnegative remainder. -/
theorem convert_sq_in_to_ft_in_spec :
    (∀ x : ℚ,
      (convert_sq_in_to_ft_in x).1 = ⌊x / 144⌋ ∧
      (convert_sq_in_to_ft_in x).2 = x - 144 * ⌊x / 144⌋ ∧
      0 ≤ (convert_sq_in_to_ft_in x).2 ∧
      (convert_sq_in_to_ft_in x).2 < 144 ∧
      144 * ((convert_sq_in_to_ft_in x).1 : ℚ) + (convert_sq_in_to_ft_in x).2 = x ∧
      (x < -144 → (convert_sq_in_to_ft_in x).1 < 0) ∧
      (-144 ≤ x → x < 0 → (convert_sq_in_to_ft_in x).1 = -1)) ∧
    (∀ w : Wall, w.siding_area_sq_in < 0 →
      w.siding_area_ft_in.1 < 0 ∧ 0 ≤ w.siding_area_ft_in.2) := by
  have main : ∀ x : ℚ,
      (convert_sq_in_to_ft_in x).1 = ⌊x / 144⌋ ∧
      (convert_sq_in_to_ft_in x).2 = x - 144 * ⌊x / 144⌋ ∧
      0 ≤ (convert_sq_in_to_ft_in x).2 ∧
      (convert_sq_in_to_ft_in x).2 < 144 ∧
      144 * ((convert_sq_in_to_ft_in x).1 : ℚ) + (convert_sq_in_to_ft_in x).2 = x ∧
      (x < -144 → (convert_sq_in_to_ft_in x).1 < 0) ∧
      (-144 ≤ x → x < 0 → (convert_sq_in_to_ft_in x).1 = -1) := by
    intro x
    have hfl : (⌊x / 144⌋ : ℚ) ≤ x / 144 := Int.floor_le _
    have hfu : x / 144 < ⌊x / 144⌋ + 1 := Int.lt_floor_add_one _
    have hc1 : (convert_sq_in_to_ft_in x).1 = ⌊x / 144⌋ := by
      simp [convert_sq_in_to_ft_in, SQ_IN_PER_SQ_FT]
    have hc2 : (convert_sq_in_to_ft_in x).2 = x - 144 * ⌊x / 144⌋ := by
      simp only [convert_sq_in_to_ft_in, SQ_IN_PER_SQ_FT]
      ring
    rw [hc1, hc2]
    refine ⟨rfl, rfl, by linarith, by linarith, by ring, ?_, ?_⟩
    · intro hx
      exact Int.floor_lt.2 (by push_cast; linarith)
    · intro hx1 hx2
      rw [Int.floor_eq_iff]
      constructor <;> push_cast <;> linarith
  refine ⟨main, fun w hw => ?_⟩
  have h := main w.siding_area_sq_in
  have hneg : ⌊w.siding_area_sq_in / 144⌋ < 0 := by
    have : w.siding_area_sq_in / 144 < ((0 : ℤ) : ℚ) := by push_cast; linarith
    exact Int.floor_lt.2 this
  exact ⟨h.1 ▸ hneg, h.2.2.1⟩

/-- C6: `panels_needed_for_area_sq_in` fails exactly for nonpositive panel
coverage; otherwise it is the ceiling of the waste-inflated square-foot
area divided by the panel coverage (negative area clamped to zero first),
and the concrete instance (10000 sq-in, 32 sq-ft panels, 10% waste) needs
3 panels. -/
theorem panels_needed_spec :
    (∀ area panel waste : ℚ, panel ≤ 0 →
      panels_needed_for_area_sq_in area panel waste =
        .error "panel_sq_ft must be > 0") ∧
    (∀ area panel waste : ℚ, 0 < panel →
      panels_needed_for_area_sq_in area panel waste =
        .ok ⌈max 0 area / 144 * (1 + waste) / panel⌉) ∧
    panels_needed_for_area_sq_in 10000 32 (1/10) = .ok 3 := by
  have h2 : ∀ area panel waste : ℚ, 0 < panel →
      panels_needed_for_area_sq_in area panel waste =
        .ok ⌈max 0 area / 144 * (1 + waste) / panel⌉ := by
    intro area panel waste h
    simp [panels_needed_for_area_sq_in, not_le.2 h, SQ_IN_PER_SQ_FT]
  refine ⟨fun area panel waste h => by
      simp [panels_needed_for_area_sq_in, h], h2, ?_⟩
  rw [h2 10000 32 (1/10) (by norm_num)]
  norm_num [Int.ceil_eq_iff]

/-- Witness for C6 at the concrete instance of the claim. -/
theorem panels_needed_spec_witness :
    (0 : ℚ) < 32 ∧
    panels_needed_for_area_sq_in 10000 32 (1/10) =
      .ok ⌈max 0 (10000 : ℚ) / 144 * (1 + 1/10) / 32⌉ :=
  ⟨by norm_num, panels_needed_spec.2.1 10000 32 (1/10) (by norm_num)⟩

/-- Witness for C10: the conversion at -200 and -50 square inches, and a
wall with one 1×1 opening and no sections. -/
theorem convert_sq_in_to_ft_in_spec_witness :
    ((-200 : ℚ) < -144 ∧ (convert_sq_in_to_ft_in (-200)).1 < 0) ∧
    (convert_sq_in_to_ft_in (-50)).1 = -1 ∧
    ((Wall.mk [] [⟨1, 1⟩]).siding_area_ft_in.1 < 0 ∧
      0 ≤ (Wall.mk [] [⟨1, 1⟩]).siding_area_ft_in.2) := by
  have hw : (Wall.mk [] [⟨1, 1⟩]).siding_area_sq_in < 0 := by
    norm_num [Wall.siding_area_sq_in, Wall.section_area_sq_in,
      Wall.opening_area_sq_in, Opening.area_sq_in]
  exact ⟨⟨by norm_num,
      (convert_sq_in_to_ft_in_spec.1 (-200)).2.2.2.2.2.1 (by norm_num)⟩,
    (convert_sq_in_to_ft_in_spec.1 (-50)).2.2.2.2.2.2 (by norm_num) (by norm_num),
    convert_sq_in_to_ft_in_spec.2 _ hw⟩

/-- Adding one key to the dict model adds its value to the sum of the
dict's values. -/
theorem dictAdd_snd_sum (out : List (PyStr × ℚ)) (k : PyStr) (v : ℚ) :
    ((dictAdd out k v).map Prod.snd).sum = (out.map Prod.snd).sum + v := by
  induction out with
  | nil => simp [dictAdd]
  | cons hd tl ih =>
      obtain ⟨k', v'⟩ := hd
      by_cases h : k' = k
      · simp [dictAdd, h]
        ring
      · simp [dictAdd, h, ih]
        ring

/-- Folding walls into the direction dict accumulates exactly the sum of
their clamped areas on top of the starting dict. -/
theorem foldl_dictAdd_snd_sum (ws : List OrientedWall)
    (out : List (PyStr × ℚ)) :
    (((ws.foldl
        (fun o ow => dictAdd o ow.direction ow.siding_area_sq_in) out)).map
      Prod.snd).sum =
      (out.map Prod.snd).sum + (ws.map OrientedWall.siding_area_sq_in).sum := by
  induction ws generalizing out with
  | nil => simp
  | cons hd tl ih =>
      simp only [List.foldl_cons, List.map_cons, List.sum_cons]
      rw [ih, dictAdd_snd_sum]
      ring

/-- C9: for every WallContainer, summing the values of
`breakdown_by_direction` equals `total_siding_area_sq_in` with no
direction filter. -/
theorem breakdown_sum_eq_total (c : WallContainer) :
    ((c.breakdown_by_direction).map Prod.snd).sum =
      c.total_siding_area_sq_in none := by
  unfold WallContainer.breakdown_by_direction WallContainer.total_siding_area_sq_in
  rw [foldl_dictAdd_snd_sum]
  simp

/-- Looking a key up in an association list with none of its keys equal to
the key returns `none`. -/
theorem lookup_eq_none_of_not_mem (l : List (PyStr × PyStr)) (k : PyStr)
    (h : k ∉ l.map Prod.fst) : l.lookup k = none := by
  induction l with
  | nil => rfl
  | cons hd tl ih =>
      simp only [List.map_cons, List.mem_cons, not_or] at h
      have hb : (k == hd.1) = false := beq_eq_false_iff_ne.2 h.1
      rw [List.lookup_cons]
      simp [hb, ih h.2]

/-- C5: `normalize_direction` strips whitespace, lower-cases, maps the
abbreviations and full direction words to their canonical form, and passes
any other label through (stripped and lower-cased) unchanged; two walls
added with raw labels `"back"` and `"Back "` aggregate under the single
key `"back"`, and labels `"n"` and `"north"` under `"north"`, with
`breakdown_by_direction` summing the clamped areas under that key. -/
theorem normalize_direction_spec :
    (∀ label : PyStr, pyLower (pyStrip label) ∉ _DIR_MAP.map Prod.fst →
      normalize_direction label = pyLower (pyStrip label)) ∧
    normalize_direction "n".data = "north".data ∧
    normalize_direction "s".data = "south".data ∧
    normalize_direction "e".data = "east".data ∧
    normalize_direction "w".data = "west".data ∧
    normalize_direction "North".data = "north".data ∧
    normalize_direction "south".data = "south".data ∧
    normalize_direction " east ".data = "east".data ∧
    normalize_direction "West".data = "west".data ∧
    normalize_direction "front".data = "front".data ∧
    normalize_direction "Back ".data = "back".data ∧
    normalize_direction "LEFT".data = "left".data ∧
    normalize_direction "right".data = "right".data ∧
    (((WallContainer.mk []).add_wall (Wall.mk [.rect ⟨10, 10⟩] [])
        "back".data).add_wall (Wall.mk [.rect ⟨2, 3⟩] [])
        "Back ".data).breakdown_by_direction = [("back".data, 106)] ∧
    (((WallContainer.mk []).add_wall (Wall.mk [.rect ⟨10, 10⟩] [])
        "n".data).add_wall (Wall.mk [.rect ⟨2, 3⟩] [])
        "north".data).breakdown_by_direction = [("north".data, 106)] := by
  refine ⟨fun label h => ?_, by decide, by decide, by decide, by decide,
    by decide, by decide, by decide, by decide, by decide, by decide,
    by decide, by decide, ?_, ?_⟩
  · show (List.lookup (pyLower (pyStrip label)) _DIR_MAP).getD
        (pyLower (pyStrip label)) = pyLower (pyStrip label)
    rw [lookup_eq_none_of_not_mem _ _ h]
    rfl
  · have h1 : normalize_direction "back".data = "back".data := by decide
    have h2 : normalize_direction "Back ".data = "back".data := by decide
    simp only [WallContainer.breakdown_by_direction, WallContainer.add_wall,
      OrientedWall.make, h1, h2, List.nil_append, List.cons_append,
      List.foldl_cons, List.foldl_nil, dictAdd, if_pos,
      OrientedWall.siding_area_sq_in, Wall.siding_area_sq_in,
      Wall.section_area_sq_in, Wall.opening_area_sq_in, WSection.area_sq_in,
      RectSection.area_sq_in, List.map_cons, List.map_nil, List.sum_cons,
      List.sum_nil]
    norm_num
  · have h1 : normalize_direction "n".data = "north".data := by decide
    have h2 : normalize_direction "north".data = "north".data := by decide
    simp only [WallContainer.breakdown_by_direction, WallContainer.add_wall,
      OrientedWall.make, h1, h2, List.nil_append, List.cons_append,
      List.foldl_cons, List.foldl_nil, dictAdd, if_pos,
      OrientedWall.siding_area_sq_in, Wall.siding_area_sq_in,
      Wall.section_area_sq_in, Wall.opening_area_sq_in, WSection.area_sq_in,
      RectSection.area_sq_in, List.map_cons, List.map_nil, List.sum_cons,
      List.sum_nil]
    norm_num

/-- Witness for C5: the label "gable" is not in the direction map and
passes through unchanged. -/
theorem normalize_direction_spec_witness :
    pyLower (pyStrip "gable".data) ∉ _DIR_MAP.map Prod.fst ∧
    normalize_direction "gable".data = pyLower (pyStrip "gable".data) :=
  ⟨by decide, normalize_direction_spec.1 "gable".data (by decide)⟩

/-- Half-to-even rounding returns either the floor or the floor plus one. -/
theorem pyRound_cases (x : ℚ) : pyRound x = ⌊x⌋ ∨ pyRound x = ⌊x⌋ + 1 := by
  simp only [pyRound]
  split_ifs <;> simp

/-- Half-to-even rounding lands within half a unit of its argument. -/
theorem abs_pyRound_sub_le (x : ℚ) : |(pyRound x : ℚ) - x| ≤ 1/2 := by
  have h0 : (⌊x⌋ : ℚ) ≤ x := Int.floor_le x
  have h1 : x < ⌊x⌋ + 1 := Int.lt_floor_add_one x
  simp only [pyRound]
  split_ifs with ha hb hc <;>
    (rw [abs_le]; push_cast; constructor <;> linarith)

/-- Half-to-even rounding is bounded below by the floor. -/
theorem floor_le_pyRound (x : ℚ) : ⌊x⌋ ≤ pyRound x := by
  rcases pyRound_cases x with h | h <;> omega

/-- Half-to-even rounding fixes integers. -/
theorem pyRound_intCast (m : ℤ) : pyRound (m : ℚ) = m := by
  norm_num [pyRound, Int.floor_intCast]

/-- Dividing by a reciprocal is multiplying. -/
theorem qdiv_one_div (a b : ℚ) : a / (1 / b) = a * b := by
  rw [div_div_eq_mul_div, div_one]

/-- Core facts about `pts_to_ft_in p n` for a positive fraction denominator
`n`: the inch remainder is in `[0, 12)`, is an integer multiple of `1/n`,
the reconstituted total `12·ft + rem` is within half a rounding step of the
exact inch value `p · 629/799`, and it is exactly the inch value whenever
that value lies on a `1/n` boundary. -/
theorem pts_to_ft_in_core (p : ℚ) (n : ℤ) (hn : 0 < n) :
    0 ≤ (pts_to_ft_in p n).2 ∧ (pts_to_ft_in p n).2 < 12 ∧
    (∃ k : ℤ, (pts_to_ft_in p n).2 = (k : ℚ) / (n : ℚ)) ∧
    |(12 * ((pts_to_ft_in p n).1 : ℚ) + (pts_to_ft_in p n).2) -
      p * SCALE_IN_PER_PT| ≤ 1 / (2 * n) ∧
    ((∃ m : ℤ, p * SCALE_IN_PER_PT * n = (m : ℚ)) →
      12 * ((pts_to_ft_in p n).1 : ℚ) + (pts_to_ft_in p n).2 =
        p * SCALE_IN_PER_PT) := by
  have hn0 : (0 : ℚ) < (n : ℚ) := by exact_mod_cast hn
  have hnne : (n : ℚ) ≠ 0 := ne_of_gt hn0
  simp only [pts_to_ft_in, qdiv_one_div]
  generalize p * SCALE_IN_PER_PT = I
  have hfl : (⌊I / 12⌋ : ℚ) ≤ I / 12 := Int.floor_le _
  have hfu : I / 12 < ⌊I / 12⌋ + 1 := Int.lt_floor_add_one _
  set F : ℤ := ⌊I / 12⌋ with hF
  set y : ℚ := (I - (F : ℚ) * 12) * (n : ℚ) with hy
  set k : ℤ := pyRound y with hk
  set rem2 : ℚ := (k : ℚ) * (1 / (n : ℚ)) with hrem2
  have hrem0 : 0 ≤ I - (F : ℚ) * 12 := by linarith
  have hrem12 : I - (F : ℚ) * 12 < 12 := by linarith
  have hy0 : 0 ≤ y := mul_nonneg hrem0 (le_of_lt hn0)
  have hy12 : y < 12 * (n : ℚ) := by
    rw [hy]
    exact mul_lt_mul_of_pos_right hrem12 hn0
  have hk0 : (0 : ℤ) ≤ k := le_trans (Int.floor_nonneg.2 hy0) (floor_le_pyRound y)
  have hka : |(k : ℚ) - y| ≤ 1/2 := abs_pyRound_sub_le y
  have hk12 : k ≤ 12 * n := by
    have h1 : (k : ℚ) ≤ y + 1/2 := by
      have := abs_le.1 hka
      linarith [this.2]
    have h2 : (k : ℚ) < ((12 * n + 1 : ℤ) : ℚ) := by push_cast; linarith
    have h3 : k < 12 * n + 1 := by exact_mod_cast h2
    omega
  have hrem2_0 : 0 ≤ rem2 := by
    rw [hrem2]
    exact mul_nonneg (by exact_mod_cast hk0) (by positivity)
  have hrem2_12 : rem2 ≤ 12 := by
    rw [hrem2, mul_one_div, div_le_iff₀ hn0]
    exact_mod_cast hk12
  have hyn : y / (n : ℚ) = I - (F : ℚ) * 12 := by
    rw [hy, mul_div_assoc, div_self hnne, mul_one]
  have htot : |rem2 - (I - (F : ℚ) * 12)| ≤ 1 / (2 * (n : ℚ)) := by
    have heq : rem2 - (I - (F : ℚ) * 12) = ((k : ℚ) - y) / (n : ℚ) := by
      rw [sub_div, hyn, hrem2, mul_one_div]
    rw [heq, abs_div, abs_of_pos hn0]
    rw [div_le_div_iff₀ hn0 (by positivity)]
    nlinarith [mul_nonneg (sub_nonneg.2 hka) (le_of_lt hn0)]
  have hexact : (∃ m : ℤ, I * (n : ℚ) = (m : ℚ)) → (k : ℚ) = y := by
    rintro ⟨m, hm⟩
    have hyint : y = ((m - F * 12 * n : ℤ) : ℚ) := by
      push_cast
      rw [hy]
      linear_combination hm
    rw [hk, hyint, pyRound_intCast]
  split_ifs with hc
  · have h12 : rem2 = 12 := le_antisymm hrem2_12 hc
    refine ⟨by rw [h12]; norm_num, by rw [h12]; norm_num,
      ⟨k - 12 * n, by
        rw [hrem2, mul_one_div]
        field_simp
        ring⟩, ?_, ?_⟩
    · have : 12 * ((F + 1 : ℤ) : ℚ) + (rem2 - 12) - I =
          rem2 - (I - (F : ℚ) * 12) := by push_cast; ring
      rw [this]
      exact htot
    · rintro ⟨m, hm⟩
      exfalso
      have hky := hexact ⟨m, hm⟩
      have : rem2 = I - (F : ℚ) * 12 := by
        rw [hrem2, hky, mul_one_div, hyn]
      linarith
  · push_neg at hc
    refine ⟨hrem2_0, hc,
      ⟨k, by rw [hrem2, mul_one_div]⟩, ?_, ?_⟩
    · have : 12 * ((F : ℤ) : ℚ) + rem2 - I = rem2 - (I - (F : ℚ) * 12) := by
        ring
      rw [this]
      exact htot
    · rintro ⟨m, hm⟩
      have hky := hexact ⟨m, hm⟩
      have : rem2 = I - (F : ℚ) * 12 := by
        rw [hrem2, hky, mul_one_div, hyn]
      rw [this]
      push_cast
      ring

/-- C7: for every points value `p` and positive `round_to_frac = n`,
`pts_to_ft_in` converts `p` to inches by the fixed ratio 629/799, and after
rounding the inch remainder to the nearest `1/n` (with a carry when the
rounded remainder reaches 12) returns an integer feet component and an
inch component in `[0, 12)` that is a multiple of `1/n`; the total
`12·ft + rem` is the exact inch value up to half a rounding step. -/
theorem pts_to_ft_in_spec (p : ℚ) (n : ℤ) (hn : 0 < n) :
    0 ≤ (pts_to_ft_in p n).2 ∧ (pts_to_ft_in p n).2 < 12 ∧
    (∃ k : ℤ, (pts_to_ft_in p n).2 = (k : ℚ) / (n : ℚ)) ∧
    |(12 * ((pts_to_ft_in p n).1 : ℚ) + (pts_to_ft_in p n).2) -
      p * (629/799)| ≤ 1 / (2 * n) := by
  have h := pts_to_ft_in_core p n hn
  have hs : SCALE_IN_PER_PT = 629/799 := rfl
  rw [hs] at h
  exact ⟨h.1, h.2.1, h.2.2.1, h.2.2.2.1⟩

/-- Witness for C7 at the points value 689 printed by the repository's
driver, with the default sixteenths rounding. -/
theorem pts_to_ft_in_spec_witness :
    (0 : ℤ) < 16 ∧
    (0 ≤ (pts_to_ft_in 689 16).2 ∧ (pts_to_ft_in 689 16).2 < 12 ∧
      (∃ k : ℤ, (pts_to_ft_in 689 16).2 = (k : ℚ) / ((16 : ℤ) : ℚ)) ∧
      |(12 * ((pts_to_ft_in 689 16).1 : ℚ) + (pts_to_ft_in 689 16).2) -
        689 * (629/799)| ≤ 1 / (2 * (16 : ℤ))) :=
  ⟨by norm_num, pts_to_ft_in_spec 689 16 (by norm_num)⟩

/-- C8: composing `ft_in_to_pts` with `pts_to_ft_in` recovers the points
value up to half of `1/n` inch expressed in points, and exactly whenever
the inch value `p · 629/799` lies on a `1/n` boundary. -/
theorem ft_in_round_trip_spec (p : ℚ) (n : ℤ) (hn : 0 < n) :
    |ft_in_to_pts (pts_to_ft_in p n).1 (pts_to_ft_in p n).2 - p| ≤
      1 / (2 * n) * (799/629) ∧
    ((∃ m : ℤ, p * (629/799) * n = (m : ℚ)) →
      ft_in_to_pts (pts_to_ft_in p n).1 (pts_to_ft_in p n).2 = p) := by
  have h := pts_to_ft_in_core p n hn
  have hs : SCALE_IN_PER_PT = 629/799 := rfl
  rw [hs] at h
  have hpt : SCALE_PT_PER_IN = 799/629 := by
    norm_num [SCALE_PT_PER_IN, SCALE_IN_PER_PT]
  constructor
  · have h4 := h.2.2.2.1
    unfold ft_in_to_pts
    rw [hpt]
    have key : (((pts_to_ft_in p n).1 : ℚ) * 12 + (pts_to_ft_in p n).2) *
          (799/629) - p =
        (799/629) * ((12 * ((pts_to_ft_in p n).1 : ℚ) +
          (pts_to_ft_in p n).2) - p * (629/799)) := by
      ring
    rw [key, abs_mul, abs_of_pos (by norm_num : (0:ℚ) < (799:ℚ)/629)]
    have hmul := mul_le_mul_of_nonneg_left h4
      (by norm_num : (0:ℚ) ≤ (799:ℚ)/629)
    linarith
  · intro hm
    have h5 := h.2.2.2.2 hm
    unfold ft_in_to_pts
    rw [hpt]
    have hT : ((pts_to_ft_in p n).1 : ℚ) * 12 + (pts_to_ft_in p n).2 =
        p * (629/799) := by linarith
    rw [hT]
    ring

/-- Witness for C8 at a point value on an exact boundary: 799/629 points
is exactly one inch, so the sixteenths round trip is exact. -/
theorem ft_in_round_trip_spec_witness :
    (0 : ℤ) < 16 ∧ ((799:ℚ)/629) * (629/799) * ((16 : ℤ) : ℚ) = ((16 : ℤ) : ℚ) ∧
    ft_in_to_pts (pts_to_ft_in (799/629) 16).1 (pts_to_ft_in (799/629) 16).2 =
      799/629 :=
  ⟨by norm_num, by norm_num,
    (ft_in_round_trip_spec (799/629) 16 (by norm_num)).2 ⟨16, by norm_num⟩⟩

/-- Equal values are close under any nonnegative absolute tolerance. -/
theorem isclose_of_eq {a b rel_tol abs_tol : ℝ} (h : a = b)
    (habs : 0 ≤ abs_tol) : isclose a b rel_tol abs_tol := by
  rw [isclose, h, sub_self, abs_zero]
  exact le_trans habs (le_max_right _ _)

/-- When the pitch check passes and the inner base does not exceed the
outer base, `equivalent_difference` returns the triangle with the
square-root base and the outer pitch components. -/
theorem equivalent_difference_eq (self inner : TriSection ℝ)
    (hp : isclose self.pitch inner.pitch (1/1000000000) (1/1000000000000))
    (hb : inner.base_in ≤ self.base_in) :
    self.equivalent_difference inner =
      .ok ⟨Real.sqrt (self.base_in ^ 2 - inner.base_in ^ 2),
        self.pitch_rise, self.pitch_run⟩ := by
  simp only [TriSection.equivalent_difference, TriSection.make]
  rw [if_neg (not_not_intro hp), if_neg (not_lt.2 hb),
    if_neg (not_lt.2 (Real.sqrt_nonneg _))]

/-- The triangle on the square-root base has exactly the area difference
of the two pitch-matched triangles. -/
theorem sqrt_tri_area (self inner : TriSection ℝ)
    (h0i : 0 ≤ inner.base_in) (hb : inner.base_in ≤ self.base_in)
    (hp : self.pitch = inner.pitch) :
    (TriSection.mk (Real.sqrt (self.base_in ^ 2 - inner.base_in ^ 2))
      self.pitch_rise self.pitch_run).area_sq_in =
      self.area_sq_in - inner.area_sq_in := by
  have hD : 0 ≤ self.base_in ^ 2 - inner.base_in ^ 2 := by nlinarith
  have hsq := Real.sq_sqrt hD
  simp only [TriSection.area_sq_in, TriSection.pitch] at *
  rw [← hp]
  linear_combination (self.pitch_rise / self.pitch_run / 4) * hsq

/-- C1: for pitch-matched triangle sections with `inner.base_in ≤
outer.base_in` (both bases nonnegative, as the constructor guarantees),
`equivalent_difference` returns a triangle whose base is
`sqrt(outer.base² - inner.base²)`, whose pitch rise and run are the outer
triangle's unchanged, and whose area is exactly `outer.area - inner.area`. -/
theorem equivalent_difference_spec (outer inner : TriSection ℝ)
    (_h0o : 0 ≤ outer.base_in) (h0i : 0 ≤ inner.base_in)
    (hp : outer.pitch = inner.pitch) (hb : inner.base_in ≤ outer.base_in) :
    ∃ t : TriSection ℝ,
      outer.equivalent_difference inner = .ok t ∧
      t.base_in = Real.sqrt (outer.base_in ^ 2 - inner.base_in ^ 2) ∧
      t.pitch_rise = outer.pitch_rise ∧ t.pitch_run = outer.pitch_run ∧
      t.area_sq_in = outer.area_sq_in - inner.area_sq_in := by
  refine ⟨_, equivalent_difference_eq outer inner
    (isclose_of_eq hp (by norm_num)) hb, rfl, rfl, rfl, ?_⟩
  exact sqrt_tri_area outer inner h0i hb hp

/-- Witness for C1 on the 3-4-5 bases with a 6/12 pitch. -/
theorem equivalent_difference_spec_witness :
    (0:ℝ) ≤ (TriSection.mk (5:ℝ) 6 12).base_in ∧
    (0:ℝ) ≤ (TriSection.mk (3:ℝ) 6 12).base_in ∧
    (TriSection.mk (5:ℝ) 6 12).pitch = (TriSection.mk (3:ℝ) 6 12).pitch ∧
    (TriSection.mk (3:ℝ) 6 12).base_in ≤ (TriSection.mk (5:ℝ) 6 12).base_in ∧
    (∃ t : TriSection ℝ,
      (TriSection.mk (5:ℝ) 6 12).equivalent_difference ⟨3, 6, 12⟩ = .ok t ∧
      t.base_in = Real.sqrt ((TriSection.mk (5:ℝ) 6 12).base_in ^ 2 -
        (TriSection.mk (3:ℝ) 6 12).base_in ^ 2) ∧
      t.pitch_rise = (TriSection.mk (5:ℝ) 6 12).pitch_rise ∧
      t.pitch_run = (TriSection.mk (5:ℝ) 6 12).pitch_run ∧
      t.area_sq_in = (TriSection.mk (5:ℝ) 6 12).area_sq_in -
        (TriSection.mk (3:ℝ) 6 12).area_sq_in) :=
  ⟨by norm_num, by norm_num, rfl, by norm_num,
    equivalent_difference_spec ⟨5, 6, 12⟩ ⟨3, 6, 12⟩
      (by norm_num) (by norm_num) rfl (by norm_num)⟩

/-- C3: `equivalent_difference` fails with the pitch-mismatch error exactly
when the pitches are not `math.isclose` (relative tolerance 1e-9, absolute
tolerance 1e-12), fails with the geometry error when the pitches are close
but the inner base exceeds the outer base, and returns a triangle in every
other case. -/
theorem equivalent_difference_errors (self inner : TriSection ℝ) :
    (¬ isclose self.pitch inner.pitch (1/1000000000) (1/1000000000000) →
      self.equivalent_difference inner = .error .pitchMismatch) ∧
    (isclose self.pitch inner.pitch (1/1000000000) (1/1000000000000) →
      self.base_in < inner.base_in →
      self.equivalent_difference inner = .error .invalidGeometry) ∧
    (isclose self.pitch inner.pitch (1/1000000000) (1/1000000000000) →
      inner.base_in ≤ self.base_in →
      ∃ t : TriSection ℝ, self.equivalent_difference inner = .ok t) := by
  refine ⟨fun h => ?_, fun hc hlt => ?_,
    fun hc hle => ⟨_, equivalent_difference_eq self inner hc hle⟩⟩
  · simp only [TriSection.equivalent_difference, TriSection.make]
    rw [if_pos h]
  · simp only [TriSection.equivalent_difference, TriSection.make]
    rw [if_neg (not_not_intro hc), if_pos hlt]

/-- Witness for C3 on concrete triangles: a 6/10-pitch inner triangle
fails the pitch check, a larger inner base fails the geometry check, and a
pitch-matched nested pair succeeds. -/
theorem equivalent_difference_errors_witness :
    (TriSection.mk (5:ℝ) 6 12).equivalent_difference ⟨3, 6, 10⟩ =
      .error .pitchMismatch ∧
    (TriSection.mk (5:ℝ) 6 12).equivalent_difference ⟨7, 6, 12⟩ =
      .error .invalidGeometry ∧
    ∃ t : TriSection ℝ,
      (TriSection.mk (5:ℝ) 6 12).equivalent_difference ⟨3, 6, 12⟩ = .ok t := by
  have hnc : ¬ isclose (TriSection.mk (5:ℝ) 6 12).pitch
      (TriSection.mk (3:ℝ) 6 10).pitch (1/1000000000) (1/1000000000000) := by
    show ¬ isclose ((6:ℝ)/12) ((6:ℝ)/10) (1/1000000000) (1/1000000000000)
    unfold isclose
    rw [not_le]
    rw [show |(6:ℝ)/12 - 6/10| = 1/10 by
      rw [abs_of_neg (by norm_num : (6:ℝ)/12 - 6/10 < 0)]; norm_num]
    rw [show |(6:ℝ)/12| = 6/12 from abs_of_nonneg (by norm_num),
      show |(6:ℝ)/10| = 6/10 from abs_of_nonneg (by norm_num)]
    rw [max_eq_right (by norm_num : (6:ℝ)/12 ≤ 6/10),
      max_eq_left
        (by norm_num : (1:ℝ)/1000000000000 ≤ 1/1000000000 * (6/10))]
    norm_num
  exact ⟨(equivalent_difference_errors _ _).1 hnc,
    (equivalent_difference_errors _ _).2.1
      (isclose_of_eq rfl (by norm_num)) (by norm_num : (5:ℝ) < 7),
    (equivalent_difference_errors _ _).2.2
      (isclose_of_eq rfl (by norm_num)) (by norm_num : (3:ℝ) ≤ 5)⟩

/-- Counterexample for C2: on the concrete pair (outer base 322.4, inner
base 213.6, both pitch 6/12) the operation succeeds, but the resulting
base `sqrt(322.4² - 213.6²) = sqrt(58316.8) ≈ 241.489` is not near the
claimed value 241.27, missing it by more than 0.1. -/
theorem tri_diff_concrete_counterexample :
    ∃ t : TriSection ℝ,
      (TriSection.mk (322.4:ℝ) 6 12).equivalent_difference ⟨213.6, 6, 12⟩ =
        .ok t ∧
      ¬ |t.base_in - 241.27| ≤ 1/10 := by
  refine ⟨_, equivalent_difference_eq _ _
    (isclose_of_eq rfl (by norm_num)) (by norm_num : (213.6:ℝ) ≤ 322.4), ?_⟩
  rw [not_le]
  have h1 : (241.48:ℝ) ≤
      Real.sqrt ((TriSection.mk (322.4:ℝ) 6 12).base_in ^ 2 -
        (TriSection.mk (213.6:ℝ) 6 12).base_in ^ 2) := by
    rw [show ((TriSection.mk (322.4:ℝ) 6 12).base_in ^ 2 -
        (TriSection.mk (213.6:ℝ) 6 12).base_in ^ 2) = 58316.8 by norm_num]
    exact (Real.le_sqrt (by norm_num) (by norm_num)).2 (by norm_num)
  have h2 := le_abs_self
    (Real.sqrt ((TriSection.mk (322.4:ℝ) 6 12).base_in ^ 2 -
      (TriSection.mk (213.6:ℝ) 6 12).base_in ^ 2) - 241.27)
  calc (1:ℝ)/10 < 241.48 - 241.27 := by norm_num
    _ ≤ _ := by linarith

/-- Amended C2: on the concrete pair the returned base is
`sqrt(322.4² - 213.6²) ≈ 241.49` (within 0.01), and the returned
triangle's area equals `outer.area - inner.area` exactly, hence within
the claimed 1e-6 tolerance. -/
theorem tri_diff_concrete_amended :
    ∃ t : TriSection ℝ,
      (TriSection.mk (322.4:ℝ) 6 12).equivalent_difference ⟨213.6, 6, 12⟩ =
        .ok t ∧
      t.base_in = Real.sqrt ((322.4:ℝ) ^ 2 - (213.6:ℝ) ^ 2) ∧
      |t.base_in - 241.49| ≤ 1/100 ∧
      t.area_sq_in = (TriSection.mk (322.4:ℝ) 6 12).area_sq_in -
        (TriSection.mk (213.6:ℝ) 6 12).area_sq_in ∧
      |t.area_sq_in - ((TriSection.mk (322.4:ℝ) 6 12).area_sq_in -
        (TriSection.mk (213.6:ℝ) 6 12).area_sq_in)| ≤ 1/1000000 := by
  have harea := sqrt_tri_area (TriSection.mk (322.4:ℝ) 6 12)
    (TriSection.mk (213.6:ℝ) 6 12) (by norm_num : (0:ℝ) ≤ 213.6)
    (by norm_num : (213.6:ℝ) ≤ 322.4) rfl
  refine ⟨_, equivalent_difference_eq _ _
    (isclose_of_eq rfl (by norm_num)) (by norm_num : (213.6:ℝ) ≤ 322.4),
    rfl, ?_, harea, ?_⟩
  · have hD : ((TriSection.mk (322.4:ℝ) 6 12).base_in ^ 2 -
        (TriSection.mk (213.6:ℝ) 6 12).base_in ^ 2) = 58316.8 := by norm_num
    rw [show Real.sqrt ((TriSection.mk (322.4:ℝ) 6 12).base_in ^ 2 -
        (TriSection.mk (213.6:ℝ) 6 12).base_in ^ 2) =
        Real.sqrt 58316.8 by rw [hD]]
    have hlo : (241.48:ℝ) ≤ Real.sqrt 58316.8 :=
      (Real.le_sqrt (by norm_num) (by norm_num)).2 (by norm_num)
    have hhi : Real.sqrt 58316.8 ≤ (241.49:ℝ) :=
      Real.sqrt_le_iff.2 ⟨by norm_num, by norm_num⟩
    rw [abs_le]
    constructor <;> linarith
  · rw [harea, sub_self, abs_zero]
    norm_num

end ScratchCAD
